import Mathlib

set_option autoImplicit false

/- Shallow embedding of the session-scoped storage and commit layer of the
Move VM (diem/move, pontem fork):
  - `language/move-vm/runtime/src/data_cache.rs` (`TransactionDataCache`)
  - `language/move-vm/runtime/src/runtime.rs` (`VMRuntime`)
  - `language/extensions/move-table-extension/src/lib.rs` (table extension)
Pure data is abstracted to naturals/strings; external collaborators (loader,
remote resolver, interpreter, value serialization) are parameters. -/

/-- Account addresses (`AccountAddress`), abstracted. -/
abbrev Addr := Nat

/-- Identifiers (`Identifier`), abstracted. -/
abbrev Ident := Nat

/-- Serialized blobs (`Vec<u8>`). -/
abbrev Bytes := List Nat

/-- Runtime values (`move_vm_types::values::Value`), abstract. -/
abbrev Val := Nat

/-- Type layouts (`MoveTypeLayout`), abstract. -/
abbrev Layout := Nat

/-- Runtime types (`loaded_data::runtime_types::Type`) as keyed by the data
cache, abstract; the signer-convention fragment gets its own inductive below. -/
abbrev Ty := Nat

/-- `ModuleId`: (address, name). -/
abbrev ModuleId := Addr × Ident

/-- The `vm_status::StatusCode` values reached by the embedded code. -/
inductive StatusCode where
  | internalTypeError
  | failedToDeserializeResource
  | failedToDeserializeArgument
  | invalidParamTypeForDeserialization
  | unknownInvariantViolationError
  | linkerError
  | storageError
  | moduleAddressDoesNotMatchSender
  | backwardIncompatibleModuleUpdate
  | duplicateModuleName
  | numberOfSignerArgumentsMismatch
  | numberOfArgumentsMismatch
  | vmExtensionError
  | aborted
  | missingData
  | resourceAlreadyExists
  deriving DecidableEq, Repr

/-- `PartialVMError`: major status code plus optional abort sub-status
(human-readable messages are dropped). -/
structure VMError where
  major : StatusCode
  sub : Option Nat := Option.none
  deriving DecidableEq, Repr

/-- `BTreeMap::get` on an association list: first binding of the key. -/
def alookup {κ ν : Type} [DecidableEq κ] : List (κ × ν) → κ → Option ν
  | [], _ => Option.none
  | (k, v) :: l, k0 => if k = k0 then some v else alookup l k0

/-- `BTreeMap::insert`: replace the binding if the key is present, else
append (iteration order differs from a B-tree, which no settled claim
depends on). -/
def ainsert {κ ν : Type} [DecidableEq κ] : List (κ × ν) → κ → ν → List (κ × ν)
  | [], k, v => [(k, v)]
  | (k0, v0) :: l, k, v =>
    if k0 = k then (k, v) :: l else (k0, v0) :: ainsert l k v

@[simp] theorem alookup_nil {κ ν : Type} [DecidableEq κ] (k : κ) :
    alookup ([] : List (κ × ν)) k = Option.none := rfl

@[simp] theorem alookup_cons {κ ν : Type} [DecidableEq κ] (k0 : κ) (v0 : ν)
    (l : List (κ × ν)) (k : κ) :
    alookup ((k0, v0) :: l) k = if k0 = k then some v0 else alookup l k := rfl

@[simp] theorem ainsert_nil {κ ν : Type} [DecidableEq κ] (k : κ) (v : ν) :
    ainsert ([] : List (κ × ν)) k v = [(k, v)] := rfl

@[simp] theorem ainsert_cons {κ ν : Type} [DecidableEq κ] (k0 : κ) (v0 : ν)
    (l : List (κ × ν)) (k : κ) (v : ν) :
    ainsert ((k0, v0) :: l) k v =
      if k0 = k then (k, v) :: l else (k0, v0) :: ainsert l k v := rfl

@[simp] theorem alookup_ainsert_self {κ ν : Type} [DecidableEq κ]
    (l : List (κ × ν)) (k : κ) (v : ν) : alookup (ainsert l k v) k = some v := by
  induction l with
  | nil => simp
  | cons hd tl ih =>
    obtain ⟨k0, v0⟩ := hd
    by_cases h : k0 = k <;> simp [h, ih]

theorem alookup_ainsert_ne {κ ν : Type} [DecidableEq κ]
    (l : List (κ × ν)) (k k1 : κ) (v : ν) (h : k ≠ k1) :
    alookup (ainsert l k v) k1 = alookup l k1 := by
  induction l with
  | nil => simp [h]
  | cons hd tl ih =>
    obtain ⟨k0, v0⟩ := hd
    by_cases h0 : k0 = k
    · subst h0; simp [h]
    · simp [h0, ih]

theorem keys_ainsert_subset {κ ν : Type} [DecidableEq κ]
    (l : List (κ × ν)) (k : κ) (v : ν) {x : κ}
    (hx : x ∈ (ainsert l k v).map Prod.fst) : x ∈ l.map Prod.fst ∨ x = k := by
  induction l with
  | nil =>
    rw [ainsert_nil, List.map_cons, List.map_nil, List.mem_singleton] at hx
    exact Or.inr hx
  | cons hd tl ih =>
    obtain ⟨k0, v0⟩ := hd
    by_cases h0 : k0 = k
    · subst h0
      rw [ainsert_cons, if_pos rfl, List.map_cons, List.mem_cons] at hx
      rw [List.map_cons, List.mem_cons]
      rcases hx with h | h
      · exact Or.inr h
      · exact Or.inl (Or.inr h)
    · rw [ainsert_cons, if_neg h0, List.map_cons, List.mem_cons] at hx
      rw [List.map_cons, List.mem_cons]
      rcases hx with h | h
      · exact Or.inl (Or.inl h)
      · rcases ih h with h1 | h1
        · exact Or.inl (Or.inr h1)
        · exact Or.inr h1

theorem keys_nodup_ainsert {κ ν : Type} [DecidableEq κ]
    (l : List (κ × ν)) (k : κ) (v : ν)
    (h : (l.map Prod.fst).Nodup) : ((ainsert l k v).map Prod.fst).Nodup := by
  induction l with
  | nil => simp
  | cons hd tl ih =>
    obtain ⟨k0, v0⟩ := hd
    rw [List.map_cons, List.nodup_cons] at h
    by_cases h0 : k0 = k
    · subst h0
      rw [ainsert_cons, if_pos rfl, List.map_cons, List.nodup_cons]
      exact ⟨h.1, h.2⟩
    · rw [ainsert_cons, if_neg h0, List.map_cons, List.nodup_cons]
      refine ⟨fun hmem => ?_, ih h.2⟩
      rcases keys_ainsert_subset tl k v hmem with h1 | h1
      · exact h.1 h1
      · exact h0 h1

/-- Modelled from the spec: the global value slot of §3 ("tri-state — absent,
present-and-clean, present-and-dirty/deleted"), refined into the five states
that §4.1's effect computation and §8's insert/remove net-effect property
require (a fresh value created this session must drop out of the diff when
removed again, a fetched value must diff to a deletion).  The implementing
code (`move-vm/types/src/values/values_impl.rs`) is not among the sources;
only its tests (`value_tests.rs`) and its callers are. -/
inductive GlobalValue where
  | slotNone
  | fresh (v : Val)
  | cachedClean (v : Val)
  | cachedDirty (v : Val)
  | deleted
  deriving DecidableEq, Repr

/-- `GlobalValue::cached(val)`: fetched from storage, clean (the struct-ness
check of the real constructor is abstracted away). -/
def GlobalValue.cached (v : Val) : GlobalValue := .cachedClean v

/-- `GlobalValue::none()`. -/
def GlobalValue.mkNone : GlobalValue := .slotNone

/-- `GlobalValue::exists()`. -/
def GlobalValue.existsVal : GlobalValue → Bool
  | .fresh _ => true
  | .cachedClean _ => true
  | .cachedDirty _ => true
  | .slotNone => false
  | .deleted => false

/-- `GlobalValue::move_to(val)`: fails when the slot is occupied; an absent
slot becomes fresh, a deleted slot becomes cached-dirty. -/
def GlobalValue.moveTo : GlobalValue → Val → Option GlobalValue
  | .slotNone, v => some (.fresh v)
  | .deleted, v => some (.cachedDirty v)
  | .fresh _, _ => Option.none
  | .cachedClean _, _ => Option.none
  | .cachedDirty _, _ => Option.none

/-- `GlobalValue::move_from()`: extracts the value; a fresh slot reverts to
absent, a cached slot becomes deleted; fails on an empty slot. -/
def GlobalValue.moveFrom : GlobalValue → Option (Val × GlobalValue)
  | .fresh v => some (v, .slotNone)
  | .cachedClean v => some (v, .deleted)
  | .cachedDirty v => some (v, .deleted)
  | .slotNone => Option.none
  | .deleted => Option.none

/-- `GlobalValueEffect`. -/
inductive GVEffect where
  | noEffect
  | deleted
  | changed (v : Val)
  deriving DecidableEq, Repr

/-- `GlobalValue::into_effect()`. -/
def GlobalValue.intoEffect : GlobalValue → GVEffect
  | .slotNone => .noEffect
  | .fresh v => .changed v
  | .cachedClean _ => .noEffect
  | .cachedDirty v => .changed v
  | .deleted => .deleted

/-! ### Transaction data cache (`runtime/src/data_cache.rs`, `mvmt-patch` version) -/

/-- `TypeTag`: the publication layer only distinguishes struct tags from
everything else. -/
inductive TypeTag where
  | structTag (s : Nat)
  | nonStruct (n : Nat)
  deriving DecidableEq, Repr

/-- `AccountDataCache`: per-address resource slots and published module
bytes. -/
structure AccountDataCache where
  dataMap : List (Ty × Layout × GlobalValue)
  moduleMap : List (Ident × Bytes)
  deriving DecidableEq, Repr

/-- `AccountDataCache::new()`. -/
def AccountDataCache.new : AccountDataCache := ⟨[], []⟩

/-- The on-disk RocksDB at the fixed path `TX_CACHE_DB_PATH` that the patched
`TransactionDataCache` uses as its account map, modelled as a map from
address to `AccountDataCache`.  RocksDB `get`/`put` and the serde round-trip
are modelled as exact lookup/insert (the reading most favourable to the
code: storage never fails and serialization round-trips). -/
abbrev AccountDb := List (Addr × AccountDataCache)

/-- The external collaborators of the data cache (§6): the loader's
`type_to_type_tag` / `type_to_type_layout`, the remote resolver's
`get_resource` / `get_module`, and value (de)serialization
(`Value::simple_deserialize` / `simple_serialize`). -/
structure DataEnv where
  typeToTypeTag : Ty → Except VMError TypeTag
  typeToTypeLayout : Ty → Except VMError Layout
  getResource : Addr → Nat → Except Unit (Option Bytes)
  getModule : ModuleId → Except Unit (Option Bytes)
  deserializeVal : Bytes → Layout → Option Val
  serializeVal : Val → Layout → Option Bytes

/-- `TransactionDataCache` (patched): the account map is the on-disk
database shared at a fixed path, plus the session's event list. -/
structure TransactionDataCache where
  accountDb : AccountDb
  eventData : List (Bytes × Nat × Ty × Layout × Val)
  deriving DecidableEq, Repr

/-- `TransactionDataCache::new`: opens the database at the fixed path; the
file's existing contents become the session's account map, and the event
list starts empty. -/
def TransactionDataCache.new (dbOnDisk : AccountDb) : TransactionDataCache :=
  { accountDb := dbOnDisk, eventData := [] }

/-- The cache-fill block of `load_resource` (`if !account_cache.data_map
.contains_key(ty) { ... }`), acting on the local copy of the account cache;
the second component counts remote `get_resource` calls. -/
def loadResourceFill (env : DataEnv) (accountCache : AccountDataCache)
    (addr : Addr) (ty : Ty) : Except VMError AccountDataCache × Nat :=
  if (alookup accountCache.dataMap ty).isSome then (.ok accountCache, 0)
  else
    match env.typeToTypeTag ty with
    | .error e => (.error e, 0)
    | .ok (.nonStruct _) => (.error ⟨.internalTypeError, Option.none⟩, 0)
    | .ok (.structTag sTag) =>
      match env.typeToTypeLayout ty with
      | .error e => (.error e, 0)
      | .ok tyLayout =>
        match env.getResource addr sTag with
        | .error _ => (.error ⟨.unknownInvariantViolationError, Option.none⟩, 1)
        | .ok Option.none =>
          (.ok { accountCache with
              dataMap := ainsert accountCache.dataMap ty
                (tyLayout, GlobalValue.mkNone) }, 1)
        | .ok (some blob) =>
          match env.deserializeVal blob tyLayout with
          | Option.none =>
            (.error ⟨.failedToDeserializeResource, Option.none⟩, 1)
          | some v =>
            (.ok { accountCache with
                dataMap := ainsert accountCache.dataMap ty
                  (tyLayout, GlobalValue.cached v) }, 1)

/-- `TransactionDataCache::load_resource` (`mvmt-patch` version).  Returns
the call's result, the cache afterwards, and the number of remote
`get_resource` calls made.  Two facts are visible in the source: the mutated
`account_cache` is a local value that is never written back to the database,
and after the cache-fill block the function unconditionally returns
`Err(UNKNOWN_INVARIANT_VIOLATION_ERROR)` — the success path is commented out
under "TODO - Not completed part" (lines 306–320). -/
def loadResource (env : DataEnv) (st : TransactionDataCache) (addr : Addr)
    (ty : Ty) : Except VMError GlobalValue × TransactionDataCache × Nat :=
  match loadResourceFill env ((alookup st.accountDb addr).getD AccountDataCache.new)
      addr ty with
  | (.error e, n) => (.error e, st, n)
  | (.ok _filledCache, n) =>
    -- `account_cache` is local and dropped here; the database is untouched
    -- and the function falls through to the unconditional error return.
    (.error ⟨.unknownInvariantViolationError, Option.none⟩, st, n)

/-- The remote fallback shared by `load_module`'s two cache-miss paths. -/
def loadModuleRemote (env : DataEnv) (id : ModuleId) : Except VMError Bytes :=
  match env.getModule id with
  | .ok (some bytes) => .ok bytes
  | .ok Option.none => .error ⟨.linkerError, Option.none⟩
  | .error _ => .error ⟨.unknownInvariantViolationError, Option.none⟩

/-- `TransactionDataCache::load_module`. -/
def loadModule (env : DataEnv) (st : TransactionDataCache) (id : ModuleId) :
    Except VMError Bytes :=
  match alookup st.accountDb id.1 with
  | some accountCache =>
    match alookup accountCache.moduleMap id.2 with
    | some blob => .ok blob
    | Option.none => loadModuleRemote env id
  | Option.none => loadModuleRemote env id

/-- `TransactionDataCache::publish_module` (patched): load the account entry
from the database (or create it), insert the blob into its module map, and
write the entry back to the on-disk database immediately. -/
def publishModule (st : TransactionDataCache) (id : ModuleId) (blob : Bytes) :
    TransactionDataCache :=
  let accountCache := (alookup st.accountDb id.1).getD AccountDataCache.new
  let accountCache :=
    { accountCache with moduleMap := ainsert accountCache.moduleMap id.2 blob }
  { st with accountDb := ainsert st.accountDb id.1 accountCache }

/-- The remote fallback of `exists_module`. -/
def existsModuleRemote (env : DataEnv) (id : ModuleId) : Except VMError Bool :=
  match env.getModule id with
  | .ok r => .ok r.isSome
  | .error _ => .error ⟨.storageError, Option.none⟩

/-- `TransactionDataCache::exists_module`. -/
def existsModule (env : DataEnv) (st : TransactionDataCache) (id : ModuleId) :
    Except VMError Bool :=
  match alookup st.accountDb id.1 with
  | some accountCache =>
    if (alookup accountCache.moduleMap id.2).isSome then .ok true
    else existsModuleRemote env id
  | Option.none => existsModuleRemote env id

/-- `TransactionDataCache::emit_event`. -/
def emitEvent (env : DataEnv) (st : TransactionDataCache) (guid : Bytes)
    (seqNum : Nat) (ty : Ty) (v : Val) : Except VMError TransactionDataCache :=
  match env.typeToTypeLayout ty with
  | .error e => .error e
  | .ok tyLayout =>
    .ok { st with eventData := st.eventData ++ [(guid, seqNum, ty, tyLayout, v)] }

/-- Per-account slice of a change set: module name → (bytes | deletion) and
struct tag → (bytes | deletion). -/
structure AccountChangeSet where
  modules : List (Ident × Option Bytes)
  resources : List (Nat × Option Bytes)
  deriving DecidableEq, Repr

/-- `ChangeSet`: per-account deltas. -/
abbrev ChangeSet := List (Addr × AccountChangeSet)

/-- An output event: guid, sequence number, type tag, payload. -/
abbrev MoveEvent := Bytes × Nat × TypeTag × Bytes

/-- The resource drain inside `into_effects`: convert each slot into
{no-op (dropped), deleted, changed(bytes)}. -/
def accountResources (env : DataEnv) :
    List (Ty × Layout × GlobalValue) → List (Nat × Option Bytes) →
    Except VMError (List (Nat × Option Bytes))
  | [], acc => .ok acc
  | (ty, layout, gv) :: rest, acc =>
    match gv.intoEffect with
    | .noEffect => accountResources env rest acc
    | .deleted =>
      match env.typeToTypeTag ty with
      | .error e => .error e
      | .ok (.nonStruct _) => .error ⟨.internalTypeError, Option.none⟩
      | .ok (.structTag s) => accountResources env rest (ainsert acc s Option.none)
    | .changed v =>
      match env.typeToTypeTag ty with
      | .error e => .error e
      | .ok (.nonStruct _) => .error ⟨.internalTypeError, Option.none⟩
      | .ok (.structTag s) =>
        match env.serializeVal v layout with
        | Option.none => .error ⟨.internalTypeError, Option.none⟩
        | some blob => accountResources env rest (ainsert acc s (some blob))

/-- The per-account loop of `into_effects`: every module blob is published
as `some blob` (`modules.insert(module_name, Some(module_blob))`); resources
go through `accountResources`. -/
def buildChangeSet (env : DataEnv) :
    List (Addr × AccountDataCache) → ChangeSet → Except VMError ChangeSet
  | [], cs => .ok cs
  | (addr, accountCache) :: rest, cs =>
    match accountResources env accountCache.dataMap [] with
    | .error e => .error e
    | .ok resources =>
      buildChangeSet env rest
        (ainsert cs addr
          ⟨accountCache.moduleMap.map (fun m => (m.1, some m.2)), resources⟩)

/-- The event loop of `into_effects`. -/
def buildEvents (env : DataEnv) :
    List (Bytes × Nat × Ty × Layout × Val) → List MoveEvent →
    Except VMError (List MoveEvent)
  | [], acc => .ok acc
  | (guid, seqNum, ty, tyLayout, v) :: rest, acc =>
    match env.typeToTypeTag ty with
    | .error e => .error e
    | .ok tag =>
      match env.serializeVal v tyLayout with
      | Option.none => .error ⟨.internalTypeError, Option.none⟩
      | some blob => buildEvents env rest (acc ++ [(guid, seqNum, tag, blob)])

/-- `TransactionDataCache::into_effects` (the database iteration is modelled
as iterating the account map; the key/value re-parse of `ParsedIterator` is
taken to round-trip). -/
def intoEffects (env : DataEnv) (st : TransactionDataCache) :
    Except VMError (ChangeSet × List MoveEvent) :=
  match buildChangeSet env st.accountDb [] with
  | .error e => .error e
  | .ok cs =>
    match buildEvents env st.eventData [] with
    | .error e => .error e
    | .ok events => .ok (cs, events)

/-! ### Claims about the data cache (C1, C3, C4, C10) -/

/-- Whether an `Except` result is a success. -/
def exceptIsOk {ε α : Type} : Except ε α → Bool
  | .ok _ => true
  | .error _ => false

/-- A concrete well-formed environment: address 1 holds a resource of struct
tag 7 whose blob is present remotely and deserializes successfully; no
modules exist remotely. -/
def dataEnvWF : DataEnv :=
  { typeToTypeTag := fun t => .ok (.structTag t)
    typeToTypeLayout := fun _ => .ok 0
    getResource := fun a s => if a = 1 ∧ s = 7 then .ok (some [42]) else .ok Option.none
    getModule := fun _ => .ok Option.none
    deserializeVal := fun _ _ => some 5
    serializeVal := fun v _ => some [v] }

theorem loadResource_never_saves (env : DataEnv) (st : TransactionDataCache)
    (addr : Addr) (ty : Ty) :
    exceptIsOk (loadResource env st addr ty).1 = false ∧
    (loadResource env st addr ty).2.1 = st := by
  unfold loadResource
  rcases hfill : loadResourceFill env
      ((alookup st.accountDb addr).getD AccountDataCache.new) addr ty with ⟨res, n⟩
  cases res <;> exact ⟨rfl, rfl⟩

/-- C1 (code bug): `load_resource` never returns the global value slot.  On
the well-formed input — address 1, type 7, resource present remotely and
deserializing correctly — the patched code performs the remote fetch and then
returns `UNKNOWN_INVARIANT_VIOLATION_ERROR` ("Return Err Result"), and on
every input whatsoever the result is an error, contradicting the claim that
the call succeeds for some well-formed input. -/
theorem c1_load_resource_never_succeeds :
    loadResource dataEnvWF (TransactionDataCache.new []) 1 7 =
      (.error ⟨.unknownInvariantViolationError, Option.none⟩,
        TransactionDataCache.new [], 1) ∧
    ∀ (env : DataEnv) (st : TransactionDataCache) (addr : Addr) (ty : Ty),
      exceptIsOk (loadResource env st addr ty).1 = false :=
  ⟨rfl, fun env st addr ty => (loadResource_never_saves env st addr ty).1⟩

/-- C3 (code bug): no slot is ever reused.  The patched `load_resource`
never writes the filled account cache back to the database, so the cache
after any call equals the cache before it, and each of two successive
`load_resource(1, 7)` calls in the same session performs its own remote
`get_resource` fetch (fetch count 1 both times) instead of at most one
fetch overall. -/
theorem c3_every_call_refetches :
    (∀ (env : DataEnv) (st : TransactionDataCache) (addr : Addr) (ty : Ty),
      (loadResource env st addr ty).2.1 = st) ∧
    (loadResource dataEnvWF (TransactionDataCache.new []) 1 7).2.2 = 1 ∧
    (loadResource dataEnvWF
      ((loadResource dataEnvWF (TransactionDataCache.new []) 1 7).2.1) 1 7).2.2 = 1 :=
  ⟨fun env st addr ty => (loadResource_never_saves env st addr ty).2, rfl, rfl⟩

/-- The fresh session opened over the on-disk database left behind by an
earlier session that published module (1, 2) and then aborted. -/
def sessionAfterAbort : TransactionDataCache :=
  TransactionDataCache.new
    (publishModule (TransactionDataCache.new []) (1, 2) [9]).accountDb

/-- C4 (code bug): the session's local state is neither private nor
discarded.  A module published through one session's cache is written to the
on-disk database immediately; a fresh session opened over the same path (as
`TransactionDataCache::new` always does) starts with a non-empty account map
and reports the module as existing even though the remote store does not
contain it and the first session never completed. -/
theorem c4_session_state_not_private :
    existsModule dataEnvWF sessionAfterAbort (1, 2) = .ok true ∧
    sessionAfterAbort.accountDb.isEmpty = false :=
  ⟨rfl, rfl⟩

theorem mem_ainsert {κ ν : Type} [DecidableEq κ] (l : List (κ × ν)) (k : κ)
    (v : ν) {p : κ × ν} (hp : p ∈ ainsert l k v) : p ∈ l ∨ p = (k, v) := by
  induction l with
  | nil => rw [ainsert_nil, List.mem_singleton] at hp; exact Or.inr hp
  | cons hd tl ih =>
    obtain ⟨k0, v0⟩ := hd
    by_cases h0 : k0 = k
    · subst h0
      rw [ainsert_cons, if_pos rfl, List.mem_cons] at hp
      rcases hp with h | h
      · exact Or.inr h
      · exact Or.inl (List.mem_cons_of_mem _ h)
    · rw [ainsert_cons, if_neg h0, List.mem_cons] at hp
      rcases hp with h | h
      · exact Or.inl (by rw [h]; exact List.mem_cons_self _ _)
      · rcases ih h with h1 | h1
        · exact Or.inl (List.mem_cons_of_mem _ h1)
        · exact Or.inr h1

theorem buildChangeSet_modules_some (env : DataEnv) :
    ∀ (l : List (Addr × AccountDataCache)) (acc cs : ChangeSet),
      buildChangeSet env l acc = .ok cs →
      (∀ p ∈ acc, ∀ m ∈ p.2.modules, (m.2).isSome = true) →
      ∀ p ∈ cs, ∀ m ∈ p.2.modules, (m.2).isSome = true := by
  intro l
  induction l with
  | nil =>
    intro acc cs h hacc
    simp only [buildChangeSet, Except.ok.injEq] at h
    subst h
    exact hacc
  | cons hd tl ih =>
    intro acc cs h hacc
    obtain ⟨addr, accountCache⟩ := hd
    simp only [buildChangeSet] at h
    rcases hres : accountResources env accountCache.dataMap [] with e | resources
    · rw [hres] at h; cases h
    · rw [hres] at h
      refine ih _ cs h ?_
      intro p hp m hm
      rcases mem_ainsert acc addr _ hp with hmem | heq
      · exact hacc p hmem m hm
      · subst heq
        simp only [List.mem_map] at hm
        obtain ⟨q, _, hq⟩ := hm
        rw [← hq]
        rfl

/-- C10: in any change set produced by `into_effects`, every module entry
carries new bytes (`modules.insert(module_name, Some(module_blob))`): no
per-module deletion is ever emitted by this layer, even though the
change-set type admits one. -/
theorem c10_module_entries_always_some (env : DataEnv)
    (st : TransactionDataCache) (cs : ChangeSet) (events : List MoveEvent)
    (h : intoEffects env st = .ok (cs, events)) :
    ∀ p ∈ cs, ∀ m ∈ p.2.modules, (m.2).isSome = true := by
  unfold intoEffects at h
  rcases hcs : buildChangeSet env st.accountDb [] with e | cs0
  · rw [hcs] at h; cases h
  · rw [hcs] at h
    rcases hev : buildEvents env st.eventData [] with e | evs
    · rw [hev] at h; cases h
    · rw [hev] at h
      simp only [Except.ok.injEq, Prod.mk.injEq] at h
      obtain ⟨rfl, rfl⟩ := h
      exact buildChangeSet_modules_some env st.accountDb [] cs0 hcs
        (by intro p hp; cases hp)

/-- Witness for C10 at a concrete session that published one module. -/
theorem c10_witness : ((2, some [9]) : Ident × Option Bytes).2.isSome = true :=
  c10_module_entries_always_some dataEnvWF
    (publishModule (TransactionDataCache.new []) (1, 2) [9])
    [(1, ⟨[(2, some [9])], []⟩)] [] rfl
    (1, ⟨[(2, some [9])], []⟩) (by simp) (2, some [9]) (by simp)

/-! ### Runtime orchestrator (`runtime/src/runtime.rs`) -/

/-- A deserialized module, reduced to the identity the publication protocol
inspects (`CompiledModule::self_id`: declared self-address and name). -/
structure CompiledModule where
  address : Addr
  name : Ident
  deriving DecidableEq, Repr

/-- `CompiledModule::self_id()`. -/
def CompiledModule.selfId (m : CompiledModule) : ModuleId := (m.address, m.name)

/-- The module half of the data store as `publish_module_bundle` sees it
(the `DataStore` trait); `publish_module` on the concrete implementation
always succeeds. -/
abbrev StoreState := List (ModuleId × Bytes)

/-- External collaborators of `publish_module_bundle`: blob
deserialization, `data_store.exists_module`, the loader's old-module fetch
combined with `Compatibility::check(..).is_fully_compatible()`, and
`verify_module_bundle_for_publication`.  All are read-only in the store. -/
structure PubEnv where
  deserialize : Bytes → Except VMError CompiledModule
  existsMod : StoreState → ModuleId → Except VMError Bool
  fullyCompatible : StoreState → ModuleId → CompiledModule → Except VMError Bool
  verifyBundle : List CompiledModule → StoreState → Except VMError Unit

/-- Step (1): deserialize every blob, failing closed on the first parse
error. -/
def deserializeAll (env : PubEnv) : List Bytes → Except VMError (List CompiledModule)
  | [] => .ok []
  | b :: rest =>
    match env.deserialize b with
    | .error e => .error e
    | .ok m =>
      match deserializeAll env rest with
      | .error e => .error e
      | .ok ms => .ok (m :: ms)

/-- Step (2): every module's declared self-address must equal the sender. -/
def checkAddresses (sender : Addr) : List CompiledModule → Except VMError Unit
  | [] => .ok ()
  | m :: rest =>
    if m.address ≠ sender then
      .error ⟨.moduleAddressDoesNotMatchSender, Option.none⟩
    else checkAddresses sender rest

/-- Steps (3)+(4): per module, if a module of the same identity exists in
storage require full compatibility; reject a duplicate identity within the
batch (`bundle_unverified` accumulates the identities seen so far). -/
def checkCompatAndDup (env : PubEnv) (store : StoreState) :
    List CompiledModule → List ModuleId → Except VMError Unit
  | [], _ => .ok ()
  | m :: rest, seen =>
    match env.existsMod store m.selfId with
    | .error e => .error e
    | .ok ex =>
      let compatRes : Except VMError Unit :=
        if ex then
          match env.fullyCompatible store m.selfId m with
          | .error e => .error e
          | .ok true => .ok ()
          | .ok false => .error ⟨.backwardIncompatibleModuleUpdate, Option.none⟩
        else .ok ()
      match compatRes with
      | .error e => .error e
      | .ok _ =>
        if m.selfId ∈ seen then .error ⟨.duplicateModuleName, Option.none⟩
        else checkCompatAndDup env store rest (m.selfId :: seen)

/-- Step (6): write every module's bytes into the store
(`data_store.publish_module`); the second component counts publish calls. -/
def publishAll (store : StoreState) : List (CompiledModule × Bytes) → StoreState × Nat
  | [] => (store, 0)
  | (m, b) :: rest =>
    let r := publishAll (ainsert store m.selfId b) rest
    (r.1, r.2 + 1)

/-- Sequencing of fallible steps (the `?` operator). -/
def andThen {ε α β : Type} : Except ε α → (α → Except ε β) → Except ε β
  | .error e, _ => .error e
  | .ok a, f => f a

@[simp] theorem andThen_error {ε α β : Type} (e : ε) (f : α → Except ε β) :
    andThen (.error e) f = .error e := rfl

@[simp] theorem andThen_ok {ε α β : Type} (a : α) (f : α → Except ε β) :
    andThen (.ok a) f = f a := rfl

/-- Steps (1)–(5) of `publish_module_bundle` in source order: deserialize,
self-address check, compatibility + duplicate check, bundle verification;
all read-only in the store. -/
def bundleChecks (env : PubEnv) (modules : List Bytes) (sender : Addr)
    (store : StoreState) : Except VMError (List CompiledModule) :=
  andThen (deserializeAll env modules) (fun compiled =>
  andThen (checkAddresses sender compiled) (fun _ =>
  andThen (checkCompatAndDup env store compiled []) (fun _ =>
  andThen (env.verifyBundle compiled store) (fun _ => .ok compiled))))

/-- `VMRuntime::publish_module_bundle`: result, final module store, and the
number of `publish_module` calls made on the store; every check precedes
the publish loop. -/
def publishModuleBundle (env : PubEnv) (modules : List Bytes) (sender : Addr)
    (store : StoreState) : Except VMError Unit × StoreState × Nat :=
  match bundleChecks env modules sender store with
  | .error e => (.error e, store, 0)
  | .ok compiled =>
    let r := publishAll store (compiled.zip modules)
    (.ok (), r.1, r.2)

/-- The fragment of runtime types relevant to the signer calling
convention. -/
inductive MTy where
  | signer
  | ref (t : MTy)
  | mutRef (t : MTy)
  | prim (n : Nat)
  deriving DecidableEq, Repr

/-- `is_signer_reference` (`Type::Reference` to `Type::Signer`). -/
def isSignerReference : MTy → Bool
  | .ref .signer => true
  | _ => false

/-- `matches!(ty, Type::Signer)`. -/
def isSignerTy : MTy → Bool
  | .signer => true
  | _ => false

/-- `file_format_common::VERSION_1`. -/
def VERSION1 : Nat := 1

/-- `number_of_signer_params` (inner function of
`create_signers_and_arguments`): count matching leading parameters, stopping
at the first non-signer; under `VERSION_1` a signer parameter is `&signer`,
later `signer`. -/
def numberOfSignerParams (version : Nat) : List MTy → Nat
  | [] => 0
  | t :: rest =>
    if (if version ≤ VERSION1 then isSignerReference t else isSignerTy t) then
      numberOfSignerParams version rest + 1
    else 0

/-- External collaborators of argument marshaling: the loader's
`type_to_type_layout`, `Value::simple_deserialize`, the signer-payload
deserialization of the `&signer` special case, and the two signer value
constructors. -/
structure ScriptEnv where
  typeLayoutOf : MTy → Except VMError Layout
  deserializeValAt : Layout → Bytes → Option Val
  deserializeSigner : Bytes → Option Addr
  signerValue : Addr → Val
  signerRefValue : Addr → Val

/-- `VMRuntime::deserialize_value`. -/
def deserializeValue (env : ScriptEnv) (ty : MTy) (arg : Bytes) :
    Except VMError Val :=
  match env.typeLayoutOf ty with
  | .error _ => .error ⟨.invalidParamTypeForDeserialization, Option.none⟩
  | .ok layout =>
    match env.deserializeValAt layout arg with
    | some v => .ok v
    | Option.none => .error ⟨.failedToDeserializeArgument, Option.none⟩

/-- `VMRuntime::deserialize_arg`: `&signer` accepts a signer-shaped
payload. -/
def deserializeArg (env : ScriptEnv) (ty : MTy) (arg : Bytes) :
    Except VMError Val :=
  if isSignerReference ty then
    match env.deserializeSigner arg with
    | some a => .ok (env.signerRefValue a)
    | Option.none => .error ⟨.failedToDeserializeArgument, Option.none⟩
  else deserializeValue env ty arg

/-- The zip loop of `deserialize_args`. -/
def deserializeArgsLoop (env : ScriptEnv) :
    List MTy → List Bytes → Except VMError (List Val)
  | [], _ => .ok []
  | _, [] => .ok []
  | ty :: tys, arg :: args =>
    match deserializeArg env ty arg with
    | .error e => .error e
    | .ok v =>
      match deserializeArgsLoop env tys args with
      | .error e => .error e
      | .ok vs => .ok (v :: vs)

/-- `VMRuntime::deserialize_args`. -/
def deserializeArgs (env : ScriptEnv) (tys : List MTy) (args : List Bytes) :
    Except VMError (List Val) :=
  if tys.length ≠ args.length then
    .error ⟨.numberOfArgumentsMismatch, Option.none⟩
  else deserializeArgsLoop env tys args

/-- `VMRuntime::create_signers_and_arguments`. -/
def createSignersAndArguments (env : ScriptEnv) (version : Nat) (tys : List MTy)
    (senders : List Addr) (args : List Bytes) : Except VMError (List Val) :=
  let nSignerParams := numberOfSignerParams version tys
  if nSignerParams = 0 then deserializeArgs env tys args
  else
    if nSignerParams ≠ senders.length then
      .error ⟨.numberOfSignerArgumentsMismatch, Option.none⟩
    else
      let makeSigner := if version ≤ VERSION1 then env.signerRefValue else env.signerValue
      match deserializeArgs env (tys.drop senders.length) args with
      | .error e => .error e
      | .ok rest => .ok (senders.map makeSigner ++ rest)

/-- External collaborators of `execute_script`: the loader
(`load_script`, returning the main function's file-format version and
parameter types after verification) and the interpreter entrypoint,
abstracted over the argument values it receives. -/
structure ExecEnv where
  script : ScriptEnv
  loadScript : Bytes → List Nat → Except VMError (Nat × List MTy)
  interpreter : List Val → Except VMError (List Val)

/-- `VMRuntime::execute_script`: result plus whether
`Interpreter::entrypoint` was invoked. -/
def executeScript (env : ExecEnv) (scriptBlob : Bytes) (tyArgs : List Nat)
    (args : List Bytes) (senders : List Addr) : Except VMError Unit × Bool :=
  match env.loadScript scriptBlob tyArgs with
  | .error e => (.error e, false)
  | .ok (version, params) =>
    match createSignersAndArguments env.script version params senders args with
    | .error e => (.error e, false)
    | .ok vals =>
      match env.interpreter vals with
      | .error e => (.error e, true)
      | .ok returnVals =>
        if returnVals.isEmpty then (.ok (), true)
        else (.error ⟨.unknownInvariantViolationError, Option.none⟩, true)

/-! ### Claims about the runtime orchestrator (C2, C8, C9) -/

theorem publishAll_count (store : StoreState)
    (l : List (CompiledModule × Bytes)) : (publishAll store l).2 = l.length := by
  induction l generalizing store with
  | nil => rfl
  | cons hd tl ih =>
    obtain ⟨m, b⟩ := hd
    simp [publishAll, ih]

theorem deserializeAll_length (env : PubEnv) :
    ∀ (l : List Bytes) (ms : List CompiledModule),
      deserializeAll env l = .ok ms → ms.length = l.length := by
  intro l
  induction l with
  | nil =>
    intro ms h
    simp only [deserializeAll, Except.ok.injEq] at h
    subst h
    rfl
  | cons b rest ih =>
    intro ms h
    simp only [deserializeAll] at h
    rcases hd : env.deserialize b with e | m
    · rw [hd] at h; cases h
    · rw [hd] at h
      rcases hr : deserializeAll env rest with e | ms0
      · rw [hr] at h; cases h
      · rw [hr] at h
        simp only [Except.ok.injEq] at h
        subst h
        simp [ih ms0 hr]

theorem bundleChecks_length (env : PubEnv) (modules : List Bytes)
    (sender : Addr) (store : StoreState) (compiled : List CompiledModule)
    (hc : bundleChecks env modules sender store = .ok compiled) :
    compiled.length = modules.length := by
  unfold bundleChecks at hc
  rcases hdes : deserializeAll env modules with e | ms
  · rw [hdes, andThen_error] at hc; cases hc
  · rw [hdes] at hc
    simp only [andThen_ok] at hc
    rcases haddr : checkAddresses sender ms with e | u
    · rw [haddr, andThen_error] at hc; cases hc
    · rw [haddr] at hc
      simp only [andThen_ok] at hc
      rcases hdup : checkCompatAndDup env store ms [] with e | u2
      · rw [hdup, andThen_error] at hc; cases hc
      · rw [hdup] at hc
        simp only [andThen_ok] at hc
        rcases hver : env.verifyBundle ms store with e | u3
        · rw [hver, andThen_error] at hc; cases hc
        · rw [hver] at hc
          simp only [andThen_ok, Except.ok.injEq] at hc
          subst hc
          exact deserializeAll_length env modules ms hdes

/-- C2: module publication is atomic.  Whenever `publish_module_bundle`
fails — at deserialization, the self-address check, the
compatibility/duplicate check, or bundle verification — no `publish_module`
call is made and the store is unchanged; on success exactly one publish per
blob happens, i.e. publishes occur only after every batch-wide check has
passed. -/
theorem c2_publish_bundle_atomic (env : PubEnv) (modules : List Bytes)
    (sender : Addr) (store : StoreState) :
    (exceptIsOk (publishModuleBundle env modules sender store).1 = false →
      (publishModuleBundle env modules sender store).2.1 = store ∧
      (publishModuleBundle env modules sender store).2.2 = 0) ∧
    (exceptIsOk (publishModuleBundle env modules sender store).1 = true →
      (publishModuleBundle env modules sender store).2.2 = modules.length) := by
  unfold publishModuleBundle
  rcases hc : bundleChecks env modules sender store with e | compiled
  · exact ⟨fun _ => ⟨rfl, rfl⟩, fun h => by simp [exceptIsOk] at h⟩
  · refine ⟨fun h => by simp [exceptIsOk] at h, fun _ => ?_⟩
    have hlen : compiled.length = modules.length :=
      bundleChecks_length env modules sender store compiled hc
    show (publishAll store (compiled.zip modules)).2 = modules.length
    rw [publishAll_count, List.length_zip, hlen, Nat.min_self]

/-- A publication environment whose deserializer rejects every blob. -/
def pubEnvReject : PubEnv :=
  { deserialize := fun _ => .error ⟨.linkerError, Option.none⟩
    existsMod := fun _ _ => .ok false
    fullyCompatible := fun _ _ _ => .ok true
    verifyBundle := fun _ _ => .ok () }

/-- Witness for C2: a bundle that fails deserialization leaves the store
untouched with zero publish calls. -/
theorem c2_witness :
    (publishModuleBundle pubEnvReject [[0]] 1 []).2.1 = [] ∧
    (publishModuleBundle pubEnvReject [[0]] 1 []).2.2 = 0 :=
  (c2_publish_bundle_atomic pubEnvReject [[0]] 1 []).1 rfl

theorem checkAddresses_mem_error (sender : Addr) :
    ∀ (l : List CompiledModule), (∃ m ∈ l, m.address ≠ sender) →
      checkAddresses sender l =
        .error ⟨.moduleAddressDoesNotMatchSender, Option.none⟩ := by
  intro l
  induction l with
  | nil =>
    intro h
    obtain ⟨m, hm, _⟩ := h
    cases hm
  | cons a rest ih =>
    intro h
    by_cases ha : a.address = sender
    · obtain ⟨m, hm, hne⟩ := h
      rcases List.mem_cons.mp hm with rfl | hmem
      · exact absurd ha hne
      · simp only [checkAddresses]
        rw [if_neg (not_not_intro ha)]
        exact ih ⟨m, hmem, hne⟩
    · simp only [checkAddresses]
      rw [if_pos ha]

/-- C9: a batch containing a module whose declared self-address differs from
the sender is rejected whole with `MODULE_ADDRESS_DOES_NOT_MATCH_SENDER`,
the store is unchanged and no publish call happens. -/
theorem c9_address_mismatch_rejects_batch (env : PubEnv) (modules : List Bytes)
    (sender : Addr) (store : StoreState) (compiled : List CompiledModule)
    (m : CompiledModule)
    (hdes : deserializeAll env modules = .ok compiled)
    (hm : m ∈ compiled) (hne : m.address ≠ sender) :
    publishModuleBundle env modules sender store =
      (.error ⟨.moduleAddressDoesNotMatchSender, Option.none⟩, store, 0) := by
  have hc : bundleChecks env modules sender store =
      .error ⟨.moduleAddressDoesNotMatchSender, Option.none⟩ := by
    unfold bundleChecks
    rw [hdes]
    simp only [andThen_ok]
    rw [checkAddresses_mem_error sender compiled ⟨m, hm, hne⟩, andThen_error]
  unfold publishModuleBundle
  rw [hc]

/-- A publication environment whose deserializer yields a module declared at
address 2 named 5. -/
def pubEnvAddr2 : PubEnv :=
  { deserialize := fun _ => .ok ⟨2, 5⟩
    existsMod := fun _ _ => .ok false
    fullyCompatible := fun _ _ _ => .ok true
    verifyBundle := fun _ _ => .ok () }

/-- Witness for C9: publishing a module with self-address 2 from sender 1
fails with the address-mismatch error and leaves the store unchanged. -/
theorem c9_witness :
    publishModuleBundle pubEnvAddr2 [[0]] 1 [] =
      (.error ⟨.moduleAddressDoesNotMatchSender, Option.none⟩, [], 0) :=
  c9_address_mismatch_rejects_batch pubEnvAddr2 [[0]] 1 [] [⟨2, 5⟩] ⟨2, 5⟩ rfl
    (by simp) (by decide)

/-- C8: for a callee with at least one leading signer parameter, a mismatch
between the computed signer-parameter count and the number of supplied
senders makes `execute_script` fail with
`NUMBER_OF_SIGNER_ARGUMENTS_MISMATCH` and the interpreter is never
invoked. -/
theorem c8_signer_count_mismatch_before_interpreter (env : ExecEnv)
    (scriptBlob : Bytes) (tyArgs : List Nat) (args : List Bytes)
    (senders : List Addr) (version : Nat) (params : List MTy)
    (hload : env.loadScript scriptBlob tyArgs = .ok (version, params))
    (hpos : 1 ≤ numberOfSignerParams version params)
    (hne : numberOfSignerParams version params ≠ senders.length) :
    executeScript env scriptBlob tyArgs args senders =
      (.error ⟨.numberOfSignerArgumentsMismatch, Option.none⟩, false) := by
  simp only [executeScript, hload, createSignersAndArguments]
  rw [if_neg (by omega : ¬ numberOfSignerParams version params = 0),
    if_pos hne]

/-- An execution environment whose loader returns a main function with two
leading signer parameters (post-`VERSION_1` format). -/
def execEnvTwoSigners : ExecEnv :=
  { script :=
      { typeLayoutOf := fun _ => .ok 0
        deserializeValAt := fun _ _ => some 0
        deserializeSigner := fun _ => some 0
        signerValue := fun a => a
        signerRefValue := fun a => a }
    loadScript := fun _ _ => .ok (2, [.signer, .signer, .prim 0])
    interpreter := fun _ => .ok [] }

/-- Witness for C8: two declared signer parameters with one supplied sender
fail with the signer-count mismatch before the interpreter runs. -/
theorem c8_witness :
    executeScript execEnvTwoSigners [0] [] [] [5] =
      (.error ⟨.numberOfSignerArgumentsMismatch, Option.none⟩, false) :=
  c8_signer_count_mismatch_before_interpreter execEnvTwoSigners [0] [] [] [5]
    2 [.signer, .signer, .prim 0] rfl (by decide) (by decide)

/-! ### Table extension (`extensions/move-table-extension/src/lib.rs`) -/

/-- `TableHandle` (a `u128`), abstracted. -/
abbrev TableHandle := Nat

/-- A single table (`struct Table`). -/
structure Table where
  handle : TableHandle
  keyLayout : Layout
  valueLayout : Layout
  content : List (Bytes × GlobalValue)
  baseSize : Nat
  sizeDelta : Int
  deriving DecidableEq, Repr

/-- `TableData`: the mutable state of the native table context. -/
structure TableData where
  newTables : List TableHandle
  removedTables : List TableHandle
  tables : List (TableHandle × Table)
  deriving DecidableEq, Repr

/-- `TableData::default()`. -/
def TableData.empty : TableData := ⟨[], [], []⟩

/-- Abstract sub-status codes (the source derives them by hashing
"Extensions::Table" with a logical code 0/1/2; only their identity
matters here). -/
def alreadyExistsSub : Nat := 0

def notFoundSub : Nat := 1

def notEmptySub : Nat := 2

/-- `partial_abort_error(_, code)`: `ABORTED` with a sub-status. -/
def abortErr (sub : Nat) : VMError := ⟨.aborted, some sub⟩

/-- `partial_extension_error(_)`: `VM_EXTENSION_ERROR`. -/
def extensionErr : VMError := ⟨.vmExtensionError, Option.none⟩

/-- External collaborators of the table extension: value (de)serialization
against a layout, the loader's type-layout query, and the sha3-based handle
derivation (transaction hash + per-transaction table counter),
abstracted. -/
structure TableEnv where
  ser : Layout → Val → Option Bytes
  deser : Layout → Bytes → Option Val
  getTypeLayout : Ty → Except VMError Layout
  deriveHandle : Nat → Nat → TableHandle

/-- The `TableResolver` trait: remote entry lookup and table size. -/
structure TableResolver where
  resolveTableEntry : TableHandle → Bytes → Except Unit (Option Bytes)
  tableSize : TableHandle → Except Unit Nat

/-- The result of a native operation, which may fail with a
`PartialVMError` or hit a Rust `assert!` / `assert_eq!` panic. -/
inductive TRes (α : Type) where
  | ok (a : α)
  | err (e : VMError)
  | panicked
  deriving DecidableEq, Repr

/-- `Table::global_value_if_exists`: serialize the key; on first touch of
those key bytes pull the entry from the remote resolver (a hit is cached
clean, a miss becomes an absent slot); report the key bytes, whether the
slot currently holds a value, and the touched key/value sizes, together
with the updated table. -/
def globalValueIfExists (env : TableEnv) (res : TableResolver) (t : Table)
    (key : Val) : Except VMError (Table × Bytes × Bool × Nat × Nat) :=
  match env.ser t.keyLayout key with
  | Option.none => .error extensionErr
  | some keyBytes =>
    let fetched : Except VMError (Table × Nat) :=
      if (alookup t.content keyBytes).isSome then .ok (t, 0)
      else
        match res.resolveTableEntry t.handle keyBytes with
        | .error _ => .error extensionErr
        | .ok (some valBytes) =>
          match env.deser t.valueLayout valBytes with
          | Option.none => .error extensionErr
          | some v =>
            let c := ainsert t.content keyBytes (GlobalValue.cached v)
            .ok ({ t with content := c }, valBytes.length)
        | .ok Option.none =>
          let c := ainsert t.content keyBytes GlobalValue.mkNone
          .ok ({ t with content := c }, 0)
    match fetched with
    | .error e => .error e
    | .ok (t1, valSize) =>
      match alookup t1.content keyBytes with
      | Option.none => .error extensionErr
        -- unreachable (`unwrap`): the entry was just inserted
      | some gv => .ok (t1, keyBytes, gv.existsVal, keyBytes.length, valSize)

/-- `Table::insert`: abort with ALREADY_EXISTS when the slot is occupied;
otherwise re-serialize key and value (for cost), `move_to` the value into
the slot, and bump `size_delta`. -/
def Table.insert (env : TableEnv) (res : TableResolver) (t : Table)
    (key val : Val) : Except VMError (Table × Nat × Nat) :=
  match globalValueIfExists env res t key with
  | .error e => .error e
  | .ok (t1, _keyBytes, ex, _ks, _vs) =>
    if ex then .error (abortErr alreadyExistsSub)
    else
      match env.ser t1.keyLayout key with
      | Option.none => .error extensionErr
      | some keyBytes2 =>
        match env.ser t1.valueLayout val with
        | Option.none => .error extensionErr
        | some valBytes =>
          match ((alookup t1.content keyBytes2).getD GlobalValue.mkNone).moveTo val with
          | Option.none => .error ⟨.resourceAlreadyExists, Option.none⟩
            -- unreachable: the slot was just reported as not existing
          | some slot =>
            let c := ainsert t1.content keyBytes2 slot
            .ok ({ t1 with content := c, sizeDelta := t1.sizeDelta + 1 },
              keyBytes2.length, valBytes.length)

/-- `Table::remove`: abort with NOT_FOUND on an absent key; otherwise
`move_from` the slot and decrement `size_delta`. -/
def Table.remove (env : TableEnv) (res : TableResolver) (t : Table)
    (key : Val) : Except VMError (Val × Table × Nat × Nat) :=
  match globalValueIfExists env res t key with
  | .error e => .error e
  | .ok (t1, keyBytes, ex, ks, vs) =>
    if ex then
      match ((alookup t1.content keyBytes).getD GlobalValue.mkNone).moveFrom with
      | Option.none => .error ⟨.missingData, Option.none⟩
        -- unreachable: the slot was just reported as existing
      | some (v, slot) =>
        let c := ainsert t1.content keyBytes slot
        .ok (v, { t1 with content := c, sizeDelta := t1.sizeDelta - 1 }, ks, vs)
    else .error (abortErr notFoundSub)

/-- `Table::contains` (the `Value::bool` wrapper is unwrapped to `Bool`). -/
def Table.contains (env : TableEnv) (res : TableResolver) (t : Table)
    (key : Val) : Except VMError (Bool × Table × Nat × Nat) :=
  match globalValueIfExists env res t key with
  | .error e => .error e
  | .ok (t1, _keyBytes, ex, ks, vs) => .ok (ex, t1, ks, vs)

/-- `Table::length`: `base_size + size_delta`, an extension error when
negative. -/
def Table.length (t : Table) : Except VMError Nat :=
  let effective : Int := (t.baseSize : Int) + t.sizeDelta
  if effective < 0 then .error extensionErr else .ok effective.toNat

/-- `Table::destroy_empty`: requires length zero, else aborts with
NOT_EMPTY. -/
def Table.destroyEmpty (t : Table) : Except VMError Unit :=
  match t.length with
  | .error e => .error e
  | .ok len => if len > 0 then .error (abortErr notEmptySub) else .ok ()

/-- `TableData::get_or_create_table_impl`.  For a locally unknown handle the
table is created: with `new_table` set, a *successful* remote `table_size`
query is asserted to report 0 (`assert_eq!(table_size, 0)` — a panic, not an
error — while a failing query is silently skipped by the `if let Ok(..)`);
without `new_table` the remote size becomes the base size.  For a locally
known handle, `new_table` aborts with ALREADY_EXISTS. -/
def getOrCreateTableImpl (env : TableEnv) (res : TableResolver)
    (td : TableData) (handle : TableHandle) (keyTy valTy : Ty)
    (newTable : Bool) : TRes TableData :=
  if (alookup td.tables handle).isSome then
    if newTable then .err (abortErr alreadyExistsSub) else .ok td
  else
    match env.getTypeLayout keyTy with
    | .error e => .err e
    | .ok keyLayout =>
      match env.getTypeLayout valTy with
      | .error e => .err e
      | .ok valueLayout =>
        let baseSizeRes : TRes Nat :=
          if newTable then
            match res.tableSize handle with
            | .ok n => if n = 0 then .ok 0 else .panicked
            | .error _ => .ok 0
          else
            match res.tableSize handle with
            | .ok n => .ok n
            | .error _ => .err extensionErr
        match baseSizeRes with
        | .panicked => .panicked
        | .err e => .err e
        | .ok baseSize =>
          let tbl : Table := ⟨handle, keyLayout, valueLayout, [], baseSize, 0⟩
          .ok { td with tables := ainsert td.tables handle tbl }

/-- `native_new_table_handle`: derive the handle from the transaction hash
and the count of tables created so far, register it in `new_tables`
(`assert!` panics on a collision there), and create the table as new.
Returns the updated state and the handle. -/
def nativeNewTableHandle (env : TableEnv) (res : TableResolver)
    (txnHash : Nat) (td : TableData) (keyTy valTy : Ty) :
    TRes (TableData × TableHandle) :=
  let handle := env.deriveHandle txnHash td.newTables.length
  if handle ∈ td.newTables then .panicked
  else
    let td1 := { td with newTables := td.newTables ++ [handle] }
    match getOrCreateTableImpl env res td1 handle keyTy valTy true with
    | .ok td2 => .ok (td2, handle)
    | .err e => .err e
    | .panicked => .panicked

/-- Sequencing of native steps (`?` under a possible panic). -/
def tbind {α β : Type} : TRes α → (α → TRes β) → TRes β
  | .ok a, f => f a
  | .err e, _ => .err e
  | .panicked, _ => .panicked

@[simp] theorem tbind_ok {α β : Type} (a : α) (f : α → TRes β) :
    tbind (.ok a) f = f a := rfl

@[simp] theorem tbind_err {α β : Type} (e : VMError) (f : α → TRes β) :
    tbind (.err e) f = .err e := rfl

@[simp] theorem tbind_panicked {α β : Type} (f : α → TRes β) :
    tbind .panicked f = .panicked := rfl

/-- `native_destroy_empty_box`: fetch (or first-touch) the table, require it
empty, then register the handle as removed (`assert!` panics if it was
already registered).  The handle is neither removed from `tables` nor from
`new_tables`. -/
def nativeDestroyEmptyBox (env : TableEnv) (res : TableResolver)
    (td : TableData) (handle : TableHandle) (keyTy valTy : Ty) :
    TRes TableData :=
  tbind (getOrCreateTableImpl env res td handle keyTy valTy false) (fun td1 =>
    match alookup td1.tables handle with
    | Option.none => .panicked
      -- unreachable (`unwrap`): get_or_create just ensured the entry
    | some table =>
      match table.destroyEmpty with
      | .error e => .err e
      | .ok _ =>
        if handle ∈ td1.removedTables then .panicked
        else .ok { td1 with removedTables := td1.removedTables ++ [handle] })

/-- A change of a single table (`TableChange`). -/
structure TableChange where
  entries : List (Bytes × Option Bytes)
  baseSize : Nat
  sizeDelta : Int
  deriving DecidableEq, Repr

/-- `TableChangeSet`. -/
structure TableChangeSet where
  newTables : List TableHandle
  removedTables : List TableHandle
  changes : List (TableHandle × TableChange)
  deriving DecidableEq, Repr

/-- The per-table entry drain inside `into_change_set`: deleted slots become
`(key, None)`, changed slots serialize to `(key, Some bytes)`, untouched
slots are skipped. -/
def tableEntries (env : TableEnv) (valueLayout : Layout) :
    List (Bytes × GlobalValue) → List (Bytes × Option Bytes) →
    Except VMError (List (Bytes × Option Bytes))
  | [], acc => .ok acc
  | (key, gv) :: rest, acc =>
    match gv.intoEffect with
    | .deleted => tableEntries env valueLayout rest (ainsert acc key Option.none)
    | .changed v =>
      match env.ser valueLayout v with
      | Option.none => .error extensionErr
      | some newBytes =>
        tableEntries env valueLayout rest (ainsert acc key (some newBytes))
    | .noEffect => tableEntries env valueLayout rest acc

/-- The per-table loop of `into_change_set`: every table in `tables` gets a
`TableChange` record (whether or not it has entries, and whether or not it
was destroyed). -/
def buildChanges (env : TableEnv) :
    List (TableHandle × Table) → List (TableHandle × TableChange) →
    Except VMError (List (TableHandle × TableChange))
  | [], acc => .ok acc
  | (handle, table) :: rest, acc =>
    match tableEntries env table.valueLayout table.content [] with
    | .error e => .error e
    | .ok entries =>
      buildChanges env rest
        (ainsert acc handle ⟨entries, table.baseSize, table.sizeDelta⟩)

/-- `NativeTableContext::into_change_set`. -/
def intoChangeSet (env : TableEnv) (td : TableData) :
    Except VMError TableChangeSet :=
  match buildChanges env td.tables [] with
  | .error e => .error e
  | .ok changes => .ok ⟨td.newTables, td.removedTables, changes⟩

/-! ### Claims about the table extension (C5, C6, C7) -/

/-- Concrete table environment: serialization is the singleton list,
deserialization its head, layouts are the types themselves, handle
derivation adds hash and counter. -/
def tEnvC : TableEnv :=
  { ser := fun _ v => some [v]
    deser := fun _ b => b.head?
    getTypeLayout := fun t => .ok t
    deriveHandle := fun h n => h + n }

/-- A resolver whose remote state contains a table of size 2 at handle 100
(and no entries). -/
def tResRemote100 : TableResolver :=
  { resolveTableEntry := fun _ _ => .ok Option.none
    tableSize := fun h => if h = 100 then .ok 2 else .ok 0 }

/-- A resolver with no remote tables at all. -/
def tResEmpty : TableResolver :=
  { resolveTableEntry := fun _ _ => .ok Option.none
    tableSize := fun _ => .ok 0 }

/-- C5 counterexample: with the freshly derived handle (100) already present
in remote storage (remote size 2), `native_new_table_handle` panics at the
`assert_eq!(table_size, 0)` check instead of failing with the AlreadyExists
error the claim predicts. -/
theorem c5_counterexample :
    nativeNewTableHandle tEnvC tResRemote100 100 TableData.empty 0 0 =
      .panicked ∧
    decide (nativeNewTableHandle tEnvC tResRemote100 100 TableData.empty 0 0 =
      TRes.err (abortErr alreadyExistsSub)) = false :=
  ⟨rfl, rfl⟩

/-- C5 (amended): `new_table_handle` registers a brand-new derived handle;
it fails with the AlreadyExists abort precisely when the derived handle is
already a locally known table; a handle that exists remotely with nonzero
reported size makes the creation-time check panic via `assert_eq!` rather
than produce AlreadyExists (and a failing size query skips the check
entirely). -/
theorem c5_amended_new_table_handle (env : TableEnv) (res : TableResolver)
    (txnHash : Nat) (td : TableData) (keyTy valTy : Ty) (n : Nat)
    (kl vl : Layout)
    (hmem : env.deriveHandle txnHash td.newTables.length ∉ td.newTables)
    (hkl : env.getTypeLayout keyTy = .ok kl)
    (hvl : env.getTypeLayout valTy = .ok vl) :
    ((alookup td.tables (env.deriveHandle txnHash td.newTables.length)).isSome
        = true →
      nativeNewTableHandle env res txnHash td keyTy valTy =
        .err (abortErr alreadyExistsSub)) ∧
    (alookup td.tables (env.deriveHandle txnHash td.newTables.length) =
        Option.none →
      res.tableSize (env.deriveHandle txnHash td.newTables.length) = .ok n →
      0 < n →
      nativeNewTableHandle env res txnHash td keyTy valTy = .panicked) := by
  constructor
  · intro hsome
    simp [nativeNewTableHandle, getOrCreateTableImpl, hmem, hsome]
  · intro hnone hsize hn
    simp [nativeNewTableHandle, getOrCreateTableImpl, hmem, hnone, hkl, hvl,
      hsize, Nat.pos_iff_ne_zero.mp hn]

/-- A table state that already knows handle 100 as an existing table. -/
def tdWith100 : TableData := ⟨[], [], [(100, ⟨100, 0, 0, [], 0, 0⟩)]⟩

/-- Witness for the amended C5, covering both the local-collision abort and
the remote-collision panic at concrete inputs. -/
theorem c5_witness :
    nativeNewTableHandle tEnvC tResEmpty 100 tdWith100 0 0 =
      .err (abortErr alreadyExistsSub) ∧
    nativeNewTableHandle tEnvC tResRemote100 100 TableData.empty 0 0 =
      .panicked :=
  ⟨(c5_amended_new_table_handle tEnvC tResEmpty 100 tdWith100 0 0 0 0 0
      (by decide) rfl rfl).1 (by decide),
    (c5_amended_new_table_handle tEnvC tResRemote100 100 TableData.empty 0 0 2
      0 0 (by decide) rfl rfl).2 (by decide) rfl (by decide)⟩

/-- The session state right after `new_table_handle` returned handle 100. -/
def td1c : TableData := ⟨[100], [], [(100, ⟨100, 0, 0, [], 0, 0⟩)]⟩

/-- The session state right after handle 100 was destroyed while empty. -/
def td2c : TableData := ⟨[100], [100], [(100, ⟨100, 0, 0, [], 0, 0⟩)]⟩

/-- The change set the session above produces. -/
def cs6 : TableChangeSet := ⟨[100], [100], [(100, ⟨[], 0, 0⟩)]⟩

/-- C6 counterexample: create a table (handle 100) and destroy it while
empty in the same session.  `destroy_empty` succeeds and the handle is in
`removed_tables` of the produced change set — but it is ALSO still in
`new_tables` and has an entry in the `changes` map, so the claim's "appears
neither in the new_tables set nor in the changes map" is false. -/
theorem c6_counterexample :
    nativeNewTableHandle tEnvC tResEmpty 100 TableData.empty 0 0 =
      .ok (td1c, 100) ∧
    nativeDestroyEmptyBox tEnvC tResEmpty td1c 100 0 0 = .ok td2c ∧
    intoChangeSet tEnvC td2c = .ok cs6 ∧
    cs6.removedTables = [100] ∧
    decide (100 ∈ cs6.newTables) = true ∧
    (alookup cs6.changes 100).isSome = true :=
  ⟨rfl, rfl, rfl, rfl, rfl, rfl⟩

theorem buildChanges_mem (env : TableEnv) :
    ∀ (l : List (TableHandle × Table))
      (acc res : List (TableHandle × TableChange)) (h : TableHandle),
      buildChanges env l acc = .ok res →
      ((alookup l h).isSome = true ∨ (alookup acc h).isSome = true) →
      (alookup res h).isSome = true := by
  intro l
  induction l with
  | nil =>
    intro acc res h hb hmem
    simp only [buildChanges, Except.ok.injEq] at hb
    subst hb
    rcases hmem with hm | hm
    · simp at hm
    · exact hm
  | cons hd tl ih =>
    intro acc res h hb hmem
    obtain ⟨h0, t0⟩ := hd
    simp only [buildChanges] at hb
    rcases he : tableEntries env t0.valueLayout t0.content [] with e | entries
    · rw [he] at hb; cases hb
    · rw [he] at hb
      refine ih _ res h hb ?_
      by_cases hh : h0 = h
      · subst hh
        right
        simp
      · rcases hmem with hm | hm
        · left
          simpa [hh] using hm
        · right
          rw [alookup_ainsert_ne _ _ _ _ hh]
          exact hm

theorem getOrCreate_existing (env : TableEnv) (res : TableResolver)
    (td : TableData) (handle : TableHandle) (keyTy valTy : Ty)
    (td1 : TableData)
    (h : getOrCreateTableImpl env res td handle keyTy valTy false = .ok td1) :
    td1.newTables = td.newTables ∧ td1.removedTables = td.removedTables ∧
    (alookup td1.tables handle).isSome = true := by
  unfold getOrCreateTableImpl at h
  by_cases hk : (alookup td.tables handle).isSome = true
  · rw [if_pos hk] at h
    simp only [Bool.false_eq_true, if_false, TRes.ok.injEq] at h
    subst h
    exact ⟨rfl, rfl, hk⟩
  · rw [if_neg hk] at h
    rcases hkl : env.getTypeLayout keyTy with e | kl
    · rw [hkl] at h; cases h
    · rw [hkl] at h
      rcases hvl : env.getTypeLayout valTy with e | vl
      · rw [hvl] at h; cases h
      · rw [hvl] at h
        rcases hts : res.tableSize handle with e | n
        · rw [hts] at h
          simp only [Bool.false_eq_true, if_false] at h
          cases h
        · rw [hts] at h
          simp only [Bool.false_eq_true, if_false, TRes.ok.injEq] at h
          subst h
          refine ⟨rfl, rfl, ?_⟩
          simp

/-- C6 (amended): a successful `destroy_empty` (the table's length is 0)
appends the handle to `removed_tables`, and the change set produced by
`into_change_set` afterwards lists the handle in `removed_tables` — but,
contrary to the original claim, `new_tables` is not touched by destruction
(a handle created this session is still reported as new) and the `changes`
map contains a record for the destroyed handle, as it does for every
touched table. -/
theorem c6_amended_destroy_empty (env : TableEnv) (res : TableResolver)
    (td td2 : TableData) (handle : TableHandle) (keyTy valTy : Ty)
    (cs : TableChangeSet)
    (hdestroy : nativeDestroyEmptyBox env res td handle keyTy valTy = .ok td2)
    (hcs : intoChangeSet env td2 = .ok cs) :
    cs.removedTables = td.removedTables ++ [handle] ∧
    cs.newTables = td.newTables ∧
    (alookup cs.changes handle).isSome = true := by
  unfold nativeDestroyEmptyBox at hdestroy
  rcases hg : getOrCreateTableImpl env res td handle keyTy valTy false
    with td1 | e | _
  · rw [hg] at hdestroy
    simp only [tbind_ok] at hdestroy
    obtain ⟨hnew, hrem, hsome⟩ := getOrCreate_existing env res td handle
      keyTy valTy td1 hg
    rcases hl : alookup td1.tables handle with _ | table
    · rw [hl] at hsome; cases hsome
    · rw [hl] at hdestroy
      dsimp only at hdestroy
      rcases hde : table.destroyEmpty with e | u
      · rw [hde] at hdestroy; cases hdestroy
      · rw [hde] at hdestroy
        by_cases hrm : handle ∈ td1.removedTables
        · rw [if_pos hrm] at hdestroy; cases hdestroy
        · rw [if_neg hrm] at hdestroy
          simp only [TRes.ok.injEq] at hdestroy
          subst hdestroy
          unfold intoChangeSet at hcs
          rcases hbc : buildChanges env td1.tables [] with e | changes
          · rw [hbc] at hcs; cases hcs
          · rw [hbc] at hcs
            simp only [Except.ok.injEq] at hcs
            subst hcs
            refine ⟨by rw [← hrem], by rw [← hnew], ?_⟩
            exact buildChanges_mem env td1.tables [] changes handle hbc
              (Or.inl (by rw [hl]; rfl))
  · rw [hg] at hdestroy
    cases hdestroy
  · rw [hg] at hdestroy
    cases hdestroy

/-- Witness for the amended C6 at the concrete create-then-destroy
session. -/
theorem c6_witness :
    cs6.removedTables = td1c.removedTables ++ [100] ∧
    cs6.newTables = td1c.newTables ∧
    (alookup cs6.changes 100).isSome = true :=
  c6_amended_destroy_empty tEnvC tResEmpty td1c td2c 100 0 0 cs6 rfl rfl

theorem gvie_present (env : TableEnv) (res : TableResolver) (t : Table)
    (key : Val) (kb : Bytes) (gv : GlobalValue)
    (hser : env.ser t.keyLayout key = some kb)
    (hmem : alookup t.content kb = some gv) :
    globalValueIfExists env res t key =
      .ok (t, kb, gv.existsVal, kb.length, 0) := by
  simp [globalValueIfExists, hser, hmem]

theorem gvie_vacant_miss (env : TableEnv) (res : TableResolver) (t : Table)
    (key : Val) (kb : Bytes)
    (hser : env.ser t.keyLayout key = some kb)
    (hmem : alookup t.content kb = Option.none)
    (hres : res.resolveTableEntry t.handle kb = .ok Option.none) :
    globalValueIfExists env res t key =
      .ok ({ t with content := ainsert t.content kb GlobalValue.mkNone },
        kb, false, kb.length, 0) := by
  simp [globalValueIfExists, hser, hmem, hres, GlobalValue.mkNone,
    GlobalValue.existsVal]

theorem gvie_vacant_hit (env : TableEnv) (res : TableResolver) (t : Table)
    (key : Val) (kb vb : Bytes) (v : Val)
    (hser : env.ser t.keyLayout key = some kb)
    (hmem : alookup t.content kb = Option.none)
    (hres : res.resolveTableEntry t.handle kb = .ok (some vb))
    (hdes : env.deser t.valueLayout vb = some v) :
    globalValueIfExists env res t key =
      .ok ({ t with content := ainsert t.content kb (GlobalValue.cached v) },
        kb, true, kb.length, vb.length) := by
  simp [globalValueIfExists, hser, hmem, hres, hdes, GlobalValue.cached,
    GlobalValue.existsVal]

theorem gvie_vacant_hit_bad (env : TableEnv) (res : TableResolver) (t : Table)
    (key : Val) (kb vb : Bytes)
    (hser : env.ser t.keyLayout key = some kb)
    (hmem : alookup t.content kb = Option.none)
    (hres : res.resolveTableEntry t.handle kb = .ok (some vb))
    (hdes : env.deser t.valueLayout vb = Option.none) :
    globalValueIfExists env res t key = .error extensionErr := by
  simp [globalValueIfExists, hser, hmem, hres, hdes]

theorem gvie_vacant_resolver_error (env : TableEnv) (res : TableResolver)
    (t : Table) (key : Val) (kb : Bytes) (e : Unit)
    (hser : env.ser t.keyLayout key = some kb)
    (hmem : alookup t.content kb = Option.none)
    (hres : res.resolveTableEntry t.handle kb = .error e) :
    globalValueIfExists env res t key = .error extensionErr := by
  simp [globalValueIfExists, hser, hmem, hres]

theorem tableEntries_alookup_not_mem (env : TableEnv) (vl : Layout) :
    ∀ (content : List (Bytes × GlobalValue))
      (acc es : List (Bytes × Option Bytes)) (kb : Bytes),
      kb ∉ content.map Prod.fst →
      tableEntries env vl content acc = .ok es →
      alookup es kb = alookup acc kb := by
  intro content
  induction content with
  | nil =>
    intro acc es kb _ hte
    simp only [tableEntries, Except.ok.injEq] at hte
    subst hte
    rfl
  | cons hd tl ih =>
    intro acc es kb hnm hte
    obtain ⟨key, gv⟩ := hd
    rw [List.map_cons, List.mem_cons] at hnm
    push_neg at hnm
    obtain ⟨hne, hnm2⟩ := hnm
    simp only [tableEntries] at hte
    rcases heff : gv.intoEffect with _ | _ | v
    · rw [heff] at hte
      dsimp only at hte
      exact ih acc es kb hnm2 hte
    · rw [heff] at hte
      dsimp only at hte
      rw [ih _ es kb hnm2 hte]
      exact alookup_ainsert_ne _ _ _ _ (fun h => hne h.symm)
    · rw [heff] at hte
      dsimp only at hte
      rcases hsv : env.ser vl v with _ | b
      · rw [hsv] at hte; cases hte
      · rw [hsv] at hte
        rw [ih _ es kb hnm2 hte]
        exact alookup_ainsert_ne _ _ _ _ (fun h => hne h.symm)

theorem tableEntries_alookup_of_nodup (env : TableEnv) (vl : Layout) :
    ∀ (content : List (Bytes × GlobalValue))
      (acc es : List (Bytes × Option Bytes)) (kb : Bytes) (gv : GlobalValue),
      (content.map Prod.fst).Nodup →
      alookup content kb = some gv →
      tableEntries env vl content acc = .ok es →
      alookup es kb =
        (match gv.intoEffect with
         | .noEffect => alookup acc kb
         | .deleted => some Option.none
         | .changed v => (env.ser vl v).map some) := by
  intro content
  induction content with
  | nil =>
    intro acc es kb gv _ hmem _
    cases hmem
  | cons hd tl ih =>
    intro acc es kb gv hnd hmem hte
    obtain ⟨key, gv0⟩ := hd
    rw [List.map_cons, List.nodup_cons] at hnd
    simp only [tableEntries] at hte
    by_cases hk : key = kb
    · subst hk
      rw [alookup_cons, if_pos rfl, Option.some.injEq] at hmem
      subst hmem
      have hnm : key ∉ tl.map Prod.fst := hnd.1
      rcases heff : gv0.intoEffect with _ | _ | v
      · rw [heff] at hte
        dsimp only at hte
        rw [tableEntries_alookup_not_mem env vl tl acc es key hnm hte]
      · rw [heff] at hte
        dsimp only at hte
        rw [tableEntries_alookup_not_mem env vl tl _ es key hnm hte]
        simp
      · rw [heff] at hte
        dsimp only at hte
        rcases hsv : env.ser vl v with _ | b
        · rw [hsv] at hte; cases hte
        · rw [hsv] at hte
          dsimp only at hte
          rw [tableEntries_alookup_not_mem env vl tl _ es key hnm hte]
          simp [hsv]
    · rw [alookup_cons, if_neg hk] at hmem
      rcases heff : gv0.intoEffect with _ | _ | v
      · rw [heff] at hte
        dsimp only at hte
        exact ih acc es kb gv hnd.2 hmem hte
      · rw [heff] at hte
        dsimp only at hte
        rw [ih _ es kb gv hnd.2 hmem hte]
        rcases heff2 : gv.intoEffect with _ | _ | w
        · exact alookup_ainsert_ne _ _ _ _ hk
        · rfl
        · rfl
      · rw [heff] at hte
        dsimp only at hte
        rcases hsv : env.ser vl v with _ | b
        · rw [hsv] at hte; cases hte
        · rw [hsv] at hte
          rw [ih _ es kb gv hnd.2 hmem hte]
          rcases heff2 : gv.intoEffect with _ | _ | w
          · exact alookup_ainsert_ne _ _ _ _ hk
          · rfl
          · rfl

/-- The table state `remove` leaves behind at a key: the slot replaced and
the size delta decremented. -/
def removedTable (t1 : Table) (kb : Bytes) (slot2 : GlobalValue) : Table :=
  { t1 with content := ainsert t1.content kb slot2, sizeDelta := t1.sizeDelta - 1 }

theorem post_insert_phase (env : TableEnv) (res : TableResolver) (t1 : Table)
    (key valOut : Val) (kb : Bytes) (slot1 slot2 : GlobalValue)
    (hser1 : env.ser t1.keyLayout key = some kb)
    (hmem1 : alookup t1.content kb = some slot1)
    (hnd1 : (t1.content.map Prod.fst).Nodup)
    (hex1 : slot1.existsVal = true)
    (hmove : slot1.moveFrom = some (valOut, slot2))
    (hex2 : slot2.existsVal = false) :
    Table.contains env res t1 key = .ok (true, t1, kb.length, 0) ∧
    Table.remove env res t1 key =
      .ok (valOut, removedTable t1 kb slot2, kb.length, 0) ∧
    Table.contains env res (removedTable t1 kb slot2) key =
      .ok (false, removedTable t1 kb slot2, kb.length, 0) ∧
    ∀ es, tableEntries env t1.valueLayout (ainsert t1.content kb slot2) [] =
        .ok es →
      alookup es kb =
        (match slot2.intoEffect with
         | .noEffect => Option.none
         | .deleted => some Option.none
         | .changed v => (env.ser t1.valueLayout v).map some) := by
  refine ⟨?_, ?_, ?_, ?_⟩
  · unfold Table.contains
    rw [gvie_present env res t1 key kb slot1 hser1 hmem1]
    dsimp only
    rw [hex1]
  · unfold Table.remove
    rw [gvie_present env res t1 key kb slot1 hser1 hmem1]
    dsimp only
    rw [if_pos hex1, hmem1]
    dsimp only [Option.getD]
    rw [hmove]
    rfl
  · unfold Table.contains
    rw [gvie_present env res (removedTable t1 kb slot2) key kb slot2 hser1
      (alookup_ainsert_self t1.content kb slot2)]
    dsimp only
    rw [hex2]
  · intro es hes
    have hres := tableEntries_alookup_of_nodup env t1.valueLayout
      (ainsert t1.content kb slot2) [] es kb slot2
      (keys_nodup_ainsert t1.content kb slot2 hnd1)
      (alookup_ainsert_self t1.content kb slot2) hes
    rcases h2 : slot2.intoEffect with _ | _ | v
    · rw [h2] at hres; exact hres
    · rw [h2] at hres; exact hres
    · rw [h2] at hres; exact hres

/-- The table state `insert` leaves behind at a key: the slot replaced and
the size delta incremented. -/
def insertedTable (tg : Table) (kb : Bytes) (slot1 : GlobalValue) : Table :=
  { tg with content := ainsert tg.content kb slot1, sizeDelta := tg.sizeDelta + 1 }

/-- C7: within one session, a successful `insert` followed immediately by
`contains` on the same key answers true; `insert` then `remove` then
`contains` answers false.  The net effect for that key in the table's
drained entry list (the per-table part of `into_change_set`) is a deletion
(`(key, None)`) when the key pre-existed remotely — its slot had been
fetched and deleted earlier in the session, the only slot state that lets
an insert succeed on a remotely present key — and the key is absent from
the entry list entirely when it was new this session (its slot was locally
absent with a remote miss, or an absent slot from earlier operations). -/
theorem c7_insert_remove_contains (env : TableEnv) (res : TableResolver)
    (t t1 : Table) (key val : Val) (kb : Bytes) (ks vs : Nat)
    (hnd : (t.content.map Prod.fst).Nodup)
    (hser : env.ser t.keyLayout key = some kb)
    (hins : Table.insert env res t key val = .ok (t1, ks, vs)) :
    Table.contains env res t1 key = .ok (true, t1, kb.length, 0) ∧
    ∃ w t2, Table.remove env res t1 key = .ok (w, t2, kb.length, 0) ∧
      Table.contains env res t2 key = .ok (false, t2, kb.length, 0) ∧
      ∀ es, tableEntries env t2.valueLayout t2.content [] = .ok es →
        ((alookup t.content kb = some GlobalValue.deleted →
            alookup es kb = some Option.none) ∧
         ((alookup t.content kb = Option.none ∨
             alookup t.content kb = some GlobalValue.slotNone) →
            alookup es kb = Option.none)) := by
  unfold Table.insert at hins
  rcases hpre : alookup t.content kb with _ | gv
  · rcases hrt : res.resolveTableEntry t.handle kb with e | ob
    · rw [gvie_vacant_resolver_error env res t key kb e hser hpre hrt] at hins
      cases hins
    · rcases ob with _ | vb
      · -- remote miss: the key is new this session
        rw [gvie_vacant_miss env res t key kb hser hpre hrt] at hins
        dsimp only at hins
        simp only [Bool.false_eq_true, if_false] at hins
        rw [hser] at hins
        dsimp only at hins
        rcases hv : env.ser t.valueLayout val with _ | vb2
        · rw [hv] at hins; cases hins
        · rw [hv] at hins
          dsimp only at hins
          rw [alookup_ainsert_self t.content kb GlobalValue.mkNone] at hins
          dsimp only [Option.getD, GlobalValue.mkNone, GlobalValue.moveTo]
            at hins
          simp only [Except.ok.injEq, Prod.mk.injEq] at hins
          obtain ⟨ht1, hks, hvs⟩ := hins
          subst ht1
          obtain ⟨hc1, hrem, hc2, hent⟩ := post_insert_phase env res
            (insertedTable
              { t with content := ainsert t.content kb GlobalValue.mkNone }
              kb (GlobalValue.fresh val)) key val kb
            (GlobalValue.fresh val) GlobalValue.slotNone hser
            (alookup_ainsert_self _ _ _)
            (keys_nodup_ainsert _ _ _ (keys_nodup_ainsert _ _ _ hnd))
            rfl rfl rfl
          refine ⟨hc1, val, _, hrem, hc2, ?_⟩
          intro es hes
          have hek := hent es hes
          refine ⟨fun hcontra => ?_, fun _ => hek⟩
          cases hcontra
      · -- remote hit: the slot is occupied, so the insert cannot succeed
        rcases hdes : env.deser t.valueLayout vb with _ | v
        · rw [gvie_vacant_hit_bad env res t key kb vb hser hpre hrt hdes]
            at hins
          cases hins
        · rw [gvie_vacant_hit env res t key kb vb v hser hpre hrt hdes] at hins
          simp [GlobalValue.cached, GlobalValue.existsVal] at hins
  · cases gv with
    | slotNone =>
      rw [gvie_present env res t key kb GlobalValue.slotNone hser hpre] at hins
      dsimp only [GlobalValue.existsVal] at hins
      simp only [Bool.false_eq_true, if_false] at hins
      rw [hser] at hins
      dsimp only at hins
      rcases hv : env.ser t.valueLayout val with _ | vb2
      · rw [hv] at hins; cases hins
      · rw [hv] at hins
        dsimp only at hins
        rw [hpre] at hins
        dsimp only [Option.getD, GlobalValue.moveTo] at hins
        simp only [Except.ok.injEq, Prod.mk.injEq] at hins
        obtain ⟨ht1, hks, hvs⟩ := hins
        subst ht1
        obtain ⟨hc1, hrem, hc2, hent⟩ := post_insert_phase env res
          (insertedTable t kb (GlobalValue.fresh val)) key val kb
          (GlobalValue.fresh val) GlobalValue.slotNone hser
          (alookup_ainsert_self _ _ _) (keys_nodup_ainsert _ _ _ hnd)
          rfl rfl rfl
        refine ⟨hc1, val, _, hrem, hc2, ?_⟩
        intro es hes
        have hek := hent es hes
        refine ⟨fun hcontra => ?_, fun _ => hek⟩
        simp at hcontra
    | fresh v =>
      rw [gvie_present env res t key kb (GlobalValue.fresh v) hser hpre] at hins
      simp [GlobalValue.existsVal] at hins
    | cachedClean v =>
      rw [gvie_present env res t key kb (GlobalValue.cachedClean v) hser hpre]
        at hins
      simp [GlobalValue.existsVal] at hins
    | cachedDirty v =>
      rw [gvie_present env res t key kb (GlobalValue.cachedDirty v) hser hpre]
        at hins
      simp [GlobalValue.existsVal] at hins
    | deleted =>
      rw [gvie_present env res t key kb GlobalValue.deleted hser hpre] at hins
      dsimp only [GlobalValue.existsVal] at hins
      simp only [Bool.false_eq_true, if_false] at hins
      rw [hser] at hins
      dsimp only at hins
      rcases hv : env.ser t.valueLayout val with _ | vb2
      · rw [hv] at hins; cases hins
      · rw [hv] at hins
        dsimp only at hins
        rw [hpre] at hins
        dsimp only [Option.getD, GlobalValue.moveTo] at hins
        simp only [Except.ok.injEq, Prod.mk.injEq] at hins
        obtain ⟨ht1, hks, hvs⟩ := hins
        subst ht1
        obtain ⟨hc1, hrem, hc2, hent⟩ := post_insert_phase env res
          (insertedTable t kb (GlobalValue.cachedDirty val)) key val kb
          (GlobalValue.cachedDirty val) GlobalValue.deleted hser
          (alookup_ainsert_self _ _ _) (keys_nodup_ainsert _ _ _ hnd)
          rfl rfl rfl
        refine ⟨hc1, val, _, hrem, hc2, ?_⟩
        intro es hes
        have hek := hent es hes
        refine ⟨fun _ => hek, fun hcontra => ?_⟩
        rcases hcontra with h | h
        · cases h
        · simp at h

/-- An empty table with handle 100. -/
def t0c7 : Table := ⟨100, 0, 0, [], 0, 0⟩

/-- The table after inserting value 7 at key 5 into `t0c7`. -/
def t1c7 : Table := ⟨100, 0, 0, [([5], GlobalValue.fresh 7)], 0, 1⟩

/-- Witness for C7 at a concrete session: insert into an empty table, then
`contains` answers true. -/
theorem c7_witness :
    Table.contains tEnvC tResEmpty t1c7 5 = .ok (true, t1c7, 1, 0) :=
  (c7_insert_remove_contains tEnvC tResEmpty t0c7 t1c7 5 7 [5] 1 1
    List.nodup_nil rfl rfl).1
